import Mathlib

/-!
Verification of the Nextcloud public-share WebDAV crawler
(`crawl_nextcloud_public.py`).

The crawler is shallowly embedded.  The parsed multi-status XML document is
modelled as an element tree (the external `xml.etree` parser is modelled as
the identity on an already-parsed document), and the HTTP transport is
modelled as a script: a function from a request counter to the outcome of
that request (a transport exception, or a response carrying a status code,
an optional Location header and a body).  Every operation of the `Crawler`
class is translated directly from the source; library calls
(`urllib.parse.quote`, `urllib.parse.urljoin`, `str` methods) are modelled
for the http/https URL shapes the crawler manipulates (no dot-segment
resolution, at most one `://` occurrence), which covers all inputs the
crawler ever builds.
-/

mutual
/-- An XML element as produced by `xml.etree.ElementTree`: a qualified tag
such as `\x7bDAV:\x7dhref`, optional text content, and the children in
document order.  The child list is a mutually inductive list type so that
the search functions below are structurally recursive. -/
inductive XmlElem : Type where
  | mk (tag : String) (text : Option String) (children : XmlList)
inductive XmlList : Type where
  | nil
  | cons (e : XmlElem) (es : XmlList)
end

def XmlElem.tag : XmlElem → String
  | .mk t _ _ => t

def XmlElem.text : XmlElem → Option String
  | .mk _ tx _ => tx

def XmlElem.children : XmlElem → XmlList
  | .mk _ _ ch => ch

/-- `Element.find("d:tag", NS)`: first direct child with the given
qualified tag. -/
def findChild (tag : String) : XmlList → Option XmlElem
  | .nil => none
  | .cons c cs => if c.tag = tag then some c else findChild tag cs

mutual
/-- `Element.find(".//d:tag", NS)` searches all proper descendants in
document order; `findDesc` additionally checks the element itself and is
only used through `findDescL`, which starts at the child list. -/
def findDesc (tag : String) : XmlElem → Option XmlElem
  | .mk t tx ch =>
    if t = tag then some (.mk t tx ch) else findDescL tag ch
def findDescL (tag : String) : XmlList → Option XmlElem
  | .nil => none
  | .cons c cs =>
    match findDesc tag c with
    | some r => some r
    | none => findDescL tag cs
end

/-- `Element.findtext("d:tag", default=dflt, namespaces=NS)`: text of the
first matching direct child (the empty string when that element has no
text content), or the default when no child matches. -/
def findtext (tag : String) (dflt : String) (ch : XmlList) : String :=
  match findChild tag ch with
  | none => dflt
  | some c => c.text.getD ""

/-- `Element.findall("d:tag", NS)`: all direct children with the given
qualified tag, in document order. -/
def XmlList.filterTag (tag : String) : XmlList → List XmlElem
  | .nil => []
  | .cons c cs => if c.tag = tag then c :: filterTag tag cs else filterTag tag cs

def tagHref : String := "\x7bDAV:\x7dhref"
def tagProp : String := "\x7bDAV:\x7dprop"
def tagResponse : String := "\x7bDAV:\x7dresponse"
def tagResourcetype : String := "\x7bDAV:\x7dresourcetype"
def tagCollection : String := "\x7bDAV:\x7dcollection"
def tagContentlength : String := "\x7bDAV:\x7dgetcontentlength"
def tagLastmodified : String := "\x7bDAV:\x7dgetlastmodified"
def tagContenttype : String := "\x7bDAV:\x7dgetcontenttype"
def tagMultistatus : String := "\x7bDAV:\x7dmultistatus"

/-- Character-level prefix test (the built-in `String.startsWith` does not
reduce in the kernel, so the string functions here all work on character
lists). -/
def charsPrefix : List Char → List Char → Bool
  | [], _ => true
  | _ :: _, [] => false
  | p :: ps, c :: cs => p = c && charsPrefix ps cs

/-- Python `s.startswith(p)`. -/
def strStartsWith (s p : String) : Bool :=
  charsPrefix p.toList s.toList

/-- Python `s[n:]` (by code points, as in Python). -/
def strDrop (s : String) (n : Nat) : String :=
  String.mk (s.toList.drop n)

/-- Python `len(s)` (code points). -/
def strLen (s : String) : Nat :=
  s.toList.length

/-- Python `s.split("/")`: no collapsing of empty fields, `""` gives
`[""]`. -/
def splitOnSlash : List Char → List (List Char)
  | [] => [[]]
  | c :: cs =>
    let r := splitOnSlash cs
    if c = '/' then [] :: r
    else
      match r with
      | [] => [[c]]
      | h :: t => (c :: h) :: t

/-- First occurrence of a substring: `breakOnSub pat l = some (a, b)` when
`l = a ++ pat ++ b` with `a` shortest. -/
def breakOnSub (pat : List Char) : List Char → Option (List Char × List Char)
  | [] => if pat.isEmpty then some ([], []) else none
  | c :: cs =>
    if charsPrefix pat (c :: cs) then some ([], (c :: cs).drop pat.length)
    else
      match breakOnSub pat cs with
      | none => none
      | some (a, b) => some (c :: a, b)

/-- Python `s.strip("/")`. -/
def pyStripSlash (s : String) : String :=
  String.mk (((s.toList.dropWhile (· = '/')).reverse.dropWhile (· = '/')).reverse)

/-- Python `s.rstrip("/")`. -/
def pyRstripSlash (s : String) : String :=
  String.mk ((s.toList.reverse.dropWhile (· = '/')).reverse)

/-- Python `s.lstrip("/")`. -/
def pyLstripSlash (s : String) : String :=
  String.mk (s.toList.dropWhile (· = '/'))

/-- Python `s.isdigit()` (restricted to ASCII digits; exotic Unicode digit
characters are outside the model). -/
def pyIsDigits (s : String) : Bool :=
  !s.toList.isEmpty && s.toList.all Char.isDigit

/-- Python `int(s)` on a string of ASCII digits. -/
def digitsToNat (s : String) : Nat :=
  s.toList.foldl (fun a c => a * 10 + (c.toNat - 48)) 0

/-- Scheme plus authority of an http/https URL, e.g.
`schemeAuth "https://h/p/q" = "https://h"`. -/
def schemeAuth (base : String) : String :=
  match breakOnSub [':', '/', '/'] base.toList with
  | some (sch, rest) => String.mk sch ++ "://" ++ String.mk (rest.takeWhile (· ≠ '/'))
  | none => base

/-- The base URL up to and including its last slash (RFC 3986 merge). -/
def mergeBase (base : String) : String :=
  String.mk ((base.toList.reverse.dropWhile (· ≠ '/')).reverse)

/-- Model of `urllib.parse.urljoin` for the http/https URLs the crawler
manipulates: absolute URLs replace the base, `//`-prefixed references keep
the base scheme, `/`-prefixed references keep scheme and authority, other
references are merged onto the base path.  Dot-segment resolution and
query/fragment splitting are not modelled (the crawler never produces
them). -/
def urljoin (base url : String) : String :=
  if url = "" then base
  else if strStartsWith url "http://" || strStartsWith url "https://" then url
  else if strStartsWith url "//" then
    (match breakOnSub [':', '/', '/'] base.toList with
     | some (sch, _) => String.mk sch ++ ":" ++ url
     | none => base ++ ":" ++ url)
  else if strStartsWith url "/" then schemeAuth base ++ url
  else mergeBase base ++ url

/-- Characters `urllib.parse.quote` never escapes (letters, digits,
`_.-~`). -/
def alwaysSafeChar (c : Char) : Bool :=
  decide (('A' ≤ c ∧ c ≤ 'Z') ∨ ('a' ≤ c ∧ c ≤ 'z') ∨ ('0' ≤ c ∧ c ≤ '9')
    ∨ c = '_' ∨ c = '.' ∨ c = '-' ∨ c = '~')

def hexUpper (n : Nat) : Char :=
  if n < 10 then Char.ofNat (48 + n) else Char.ofNat (55 + n)

/-- `%XX` percent-encoding of one byte, uppercase hex as in CPython. -/
def pctByte (b : Nat) : List Char :=
  ['%', hexUpper (b / 16), hexUpper (b % 16)]

/-- UTF-8 encoding of a Unicode code point. -/
def utf8Bytes (n : Nat) : List Nat :=
  if n < 128 then [n]
  else if n < 2048 then [192 + n / 64, 128 + n % 64]
  else if n < 65536 then [224 + n / 4096, 128 + n / 64 % 64, 128 + n % 64]
  else [240 + n / 262144, 128 + n / 4096 % 64, 128 + n / 64 % 64, 128 + n % 64]

/-- Model of `urllib.parse.quote(s, safe=...)`: every character outside the
always-safe set and the `safe` list has its UTF-8 bytes percent-encoded. -/
def pyQuote (safe : List Char) (s : String) : String :=
  String.mk (List.flatten (s.toList.map fun c =>
    if alwaysSafeChar c || safe.contains c then [c]
    else List.flatten ((utf8Bytes c.toNat).map pctByte)))

/-- The serialized node dictionary built by `Crawler._node_from_prop`.
`type` is the literal string `"directory"` or `"file"`; optional fields are
`None`-able in the source. -/
structure Node where
  name : String
  path : String
  type : String
  size : Option Nat
  last_modified : Option String
  content_type : Option String
  web_url : Option String
deriving DecidableEq

/-- Exceptions raised by one request attempt: a `requests` transport
exception (identified by an opaque id), or the `HTTPError` produced by
`raise_for_status()` on an error status. -/
inductive ReqErr : Type where
  | transport (e : Nat)
  | httpStatus (st : Nat)
deriving DecidableEq

/-- Outcome of one HTTP request on the wire: a transport exception, or a
response with status code, optional `Location` header and (parsed) body. -/
inductive Outcome : Type where
  | exc (e : Nat)
  | resp (status : Nat) (location : Option String) (body : XmlElem)

def Outcome.statusOf : Outcome → Option Nat
  | .exc _ => none
  | .resp st _ _ => some st

def Outcome.locOf : Outcome → Option String
  | .exc _ => none
  | .resp _ l _ => l

/-- The exception a failing outcome turns into inside `_propfind`'s
`except` handler. -/
def Outcome.errOf : Outcome → ReqErr
  | .exc e => .transport e
  | .resp st _ _ => .httpStatus st

/-- A failing attempt in the sense of the spec: a transport exception, or a
response whose status makes `raise_for_status()` raise (4xx/5xx). -/
def Outcome.isFailure : Outcome → Bool
  | .exc _ => true
  | .resp st _ _ => decide (400 ≤ st ∧ st < 600)

/-- The statuses `_propfind` treats as redirects (`r.is_redirect` is a
subset of this explicit tuple, so the disjunction collapses to it). -/
def redirectStatuses : List Nat := [301, 302, 303, 307, 308]

def Outcome.isRedirect : Outcome → Bool
  | .exc _ => false
  | .resp st _ _ => decide (st ∈ redirectStatuses)

/-- Result of `Crawler._propfind`: the returned body or the exception
finally raised (`none` models `raise None` when `last_exc` was never set),
the next script index, the target URL of every attempt actually issued,
and the `time.sleep` durations in order. -/
structure PfOut where
  result : Except (Option ReqErr) XmlElem
  idx : Nat
  queries : List String
  sleeps : List ℚ

/-- The retry loop of `Crawler._propfind`, one step per iteration of
`for attempt in range(1, max_retries + 1)`.  A 207 response returns its
body; a redirect updates the target URL from the `Location` header (kept
unchanged when the header is absent) and continues without sleeping; an
error status (4xx/5xx) is raised by `raise_for_status()` and caught like a
transport exception, recording it and sleeping `backoff * attempt`; any
other status falls through `raise_for_status()` and its body is returned.
When the budget is exhausted the last recorded exception is raised. -/
def propfindGo (backoff : ℚ) (script : Nat → Outcome) :
    Nat → Nat → Nat → String → Option ReqErr → PfOut
  | 0, _, idx, _, lastExc => ⟨.error lastExc, idx, [], []⟩
  | rem + 1, attempt, idx, href, lastExc =>
    match script idx with
    | .exc e =>
      let o := propfindGo backoff script rem (attempt + 1) (idx + 1) href
        (some (.transport e))
      ⟨o.result, o.idx, href :: o.queries, backoff * (attempt : ℚ) :: o.sleeps⟩
    | .resp st loc body =>
      if st = 207 then ⟨.ok body, idx + 1, [href], []⟩
      else if st ∈ redirectStatuses then
        let o := propfindGo backoff script rem (attempt + 1) (idx + 1)
          (loc.getD href) lastExc
        ⟨o.result, o.idx, href :: o.queries, o.sleeps⟩
      else if 400 ≤ st ∧ st < 600 then
        let o := propfindGo backoff script rem (attempt + 1) (idx + 1) href
          (some (.httpStatus st))
        ⟨o.result, o.idx, href :: o.queries, backoff * (attempt : ℚ) :: o.sleeps⟩
      else ⟨.ok body, idx + 1, [href], []⟩

/-- `Crawler._propfind(href)`: the loop starts at attempt 1 with no
recorded exception. -/
def propfind (maxRetries : Nat) (backoff : ℚ) (script : Nat → Outcome)
    (idx : Nat) (href : String) : PfOut :=
  propfindGo backoff script maxRetries 1 idx href none

/-- `Crawler._is_collection`: the `resourcetype` property contains a
`collection` marker element. -/
def isCollection (prop : XmlElem) : Bool :=
  match findChild tagResourcetype prop.children with
  | none => false
  | some rt => (findChild tagCollection rt.children).isSome

/-- `Crawler._normalize_child_href`. -/
def normalizeChildHref (webdavRoot href : String) : String :=
  if strStartsWith href webdavRoot = false then
    if strStartsWith href "/" then urljoin webdavRoot (pyLstripSlash href) else href
  else href

/-- `Crawler._browser_url_for_file`: split the relative path into parent
folder and filename and build the share's download URL.  Both `quote`
calls use the default safe set `"/"` (the second call passes no `safe`
argument, whose default is also `"/"`). -/
def browserUrlForFile (baseShareUrl path : String) : String :=
  let parts := splitOnSlash (pyStripSlash path).toList
  let pf :=
    if parts.length = 1 then (['/'], parts.headD [])
    else ('/' :: List.intercalate ['/'] parts.dropLast, parts.getLastD [])
  baseShareUrl ++ "download" ++ "?path=" ++ pyQuote ['/'] (String.mk pf.1)
    ++ "&files=" ++ pyQuote ['/'] (String.mk pf.2)

/-- `Crawler._node_from_prop`: build one node dictionary from one
`d:response` element of a multi-status body, or `None` when the href or
the `prop` block is missing. -/
def nodeFromProp (webdavRoot shareBase rootHref : String) (resp : XmlElem) :
    Option Node :=
  let href0 := findtext tagHref "" resp.children
  if href0 = "" then none
  else
    let href := normalizeChildHref webdavRoot (urljoin rootHref href0)
    let rel := pyStripSlash (strDrop href (strLen webdavRoot))
    match findDescL tagProp resp.children with
    | none => none
    | some prop =>
      let isDir := isCollection prop
      let size := findtext tagContentlength "" prop.children
      let mtime := findtext tagLastmodified "" prop.children
      let ctype := findtext tagContenttype "" prop.children
      some {
        name := if rel ≠ "" then String.mk ((splitOnSlash rel.toList).getLastD []) else ""
        path := rel
        type := if isDir then "directory" else "file"
        size := if pyIsDigits size then some (digitsToNat size) else none
        last_modified := if mtime = "" then none else some mtime
        content_type := if ctype = "" then none else some ctype
        web_url :=
          if isDir = false ∧ rel ≠ "" then some (browserUrlForFile shareBase rel)
          else none }

/-- Crawler configuration: the resolved WebDAV root, the share's base
browser URL, and the retry parameters. -/
structure Cfg where
  webdavRoot : String
  shareBase : String
  maxRetries : Nat
  backoff : ℚ

/-- Result of `Crawler.list_dir`: the child node list or the propagated
request exception, plus the next script index. -/
structure ListOut where
  result : Except (Option ReqErr) (List Node)
  idx : Nat

/-- `Crawler.list_dir`: depth-1 propfind, parse every `d:response` child,
and drop a node when `node["path"] == "" or (href.rstrip("/") ==
webdav_root.rstrip("/") and node["name"] == "")` — Python's `and` binds
tighter than `or`. -/
def listDir (cfg : Cfg) (script : Nat → Outcome) (idx : Nat) (href : String) :
    ListOut :=
  let pf := propfind cfg.maxRetries cfg.backoff script idx href
  match pf.result with
  | .error e => ⟨.error e, pf.idx⟩
  | .ok body =>
    let items := (XmlList.filterTag tagResponse body.children).filterMap fun r =>
      match nodeFromProp cfg.webdavRoot cfg.shareBase href r with
      | none => none
      | some node =>
        if node.path = "" ∨
            (pyRstripSlash href = pyRstripSlash cfg.webdavRoot ∧ node.name = "")
        then none else some node
    ⟨.ok items, pf.idx⟩

/-- A subtree of the crawled result: a node dictionary, with a `children`
key attached exactly when the walk recursed into it. -/
inductive DirTree : Type where
  | mk (info : Node) (children : Option (List DirTree))

/-- Errors aborting a crawl: a propagated request exception, or exhaustion
of the fuel that makes the embedded recursion total (the Python original
has no such bound; enough fuel always exists for finitely branching
responses, as the cyclic example below shows). -/
inductive CrawlErr : Type where
  | request (e : Option ReqErr)
  | fuelOut
deriving DecidableEq

/-- Result of one `walk(href)` call: the child trees or the propagated
error, the visited set (Python mutates one shared set), the next script
index, and the relative paths for which a directory listing was issued. -/
structure WalkOut where
  result : Except CrawlErr (List DirTree)
  visited : List String
  idx : Nat
  queried : List String

/-- The path of `href` relative to the WebDAV root:
`href[len(webdav_root):].strip("/")`. -/
def relOf (webdavRoot href : String) : String :=
  pyStripSlash (strDrop href (strLen webdavRoot))

/-- One iteration of the `for child in children` loop inside `walk`: a
directory child is expanded through `sub` (the recursive walk) and gets a
`children` key, a file child is appended as-is.  A previously raised
exception short-circuits the rest of the loop. -/
def walkChildStep (cfg : Cfg) (sub : List String → Nat → String → WalkOut)
    (acc : WalkOut) (c : Node) : WalkOut :=
  match acc.result with
  | .error _ => acc
  | .ok ts =>
    if c.type = "directory" then
      let o1 := sub acc.visited acc.idx (urljoin cfg.webdavRoot (c.path ++ "/"))
      match o1.result with
      | .error e => ⟨.error e, o1.visited, o1.idx, acc.queried ++ o1.queried⟩
      | .ok subts =>
        ⟨.ok (ts ++ [DirTree.mk c (some subts)]), o1.visited, o1.idx,
          acc.queried ++ o1.queried⟩
    else ⟨.ok (ts ++ [DirTree.mk c none]), acc.visited, acc.idx, acc.queried⟩

/-- The recursive `walk` closure inside `Crawler.crawl`: an already
visited relative path immediately yields an empty child list without any
request; otherwise the path is marked visited, the directory is listed,
and each child is processed in order. -/
def walk (cfg : Cfg) (script : Nat → Outcome) :
    Nat → List String → Nat → String → WalkOut
  | 0, v, idx, href =>
    if relOf cfg.webdavRoot href ∈ v then ⟨.ok [], v, idx, []⟩
    else ⟨.error .fuelOut, v, idx, []⟩
  | fuel + 1, v, idx, href =>
    let rel := relOf cfg.webdavRoot href
    if rel ∈ v then ⟨.ok [], v, idx, []⟩
    else
      let v' := rel :: v
      match listDir cfg script idx href with
      | ⟨.error e, idx'⟩ => ⟨.error (.request e), v', idx', [rel]⟩
      | ⟨.ok nodes, idx'⟩ =>
        let o := nodes.foldl
          (walkChildStep cfg (fun w i h => walk cfg script fuel w i h))
          ⟨.ok [], v', idx', []⟩
        ⟨o.result, o.visited, o.idx, rel :: o.queried⟩

/-- `Crawler.crawl`: walk the resolved root with an empty visited set (the
synthetic root dictionary wrapping the returned children carries the
constant fields `type="directory"`, `name=""`, `path=""`). -/
def crawl (cfg : Cfg) (script : Nat → Outcome) (fuel idx : Nat) : WalkOut :=
  walk cfg script fuel [] idx cfg.webdavRoot

/-- `self.webdav_root` as built in `Crawler.__init__`. -/
def webdavRootFor (base : String) : String :=
  urljoin (pyRstripSlash base ++ "/") "public.php/webdav/"

/-- `self.alt_root_template` as built in `Crawler.__init__`. -/
def altRootFor (base token : String) : String :=
  urljoin (pyRstripSlash base ++ "/") ("public.php/dav/files/" ++ token ++ "/")

/-- `self.base_share_url` as built in `Crawler.__init__`. -/
def shareBaseFor (base token : String) : String :=
  urljoin (pyRstripSlash base ++ "/") ("index.php/s/" ++ token ++ "/")

/-- `Crawler._probe`: one depth-0 request; success is status 207, 301 or
302, and a transport exception is failure. -/
def probeOk : Outcome → Bool
  | .exc _ => false
  | .resp st _ _ => st == 207 || st == 301 || st == 302

/-- Result of endpoint resolution in `Crawler.__init__`: the resolved root
or the `RuntimeError`, the next script index, and the candidate URLs
probed, in order. -/
structure ResolveOut where
  root : Except Unit String
  idx : Nat
  probed : List String

/-- Endpoint detection in `Crawler.__init__`: probe the primary root, then
on failure the alternative root, and raise when both fail. -/
def resolveRoot (base token : String) (script : Nat → Outcome) (idx : Nat) :
    ResolveOut :=
  let cand1 := webdavRootFor base
  let cand2 := altRootFor base token
  if probeOk (script idx) then ⟨.ok cand1, idx + 1, [cand1]⟩
  else if probeOk (script (idx + 1)) then ⟨.ok cand2, idx + 2, [cand1, cand2]⟩
  else ⟨.error (), idx + 2, [cand1, cand2]⟩

/-- Errors of the whole pipeline: the constructor `RuntimeError` (neither
endpoint works), or an error propagated out of `crawl`. -/
inductive ShareErr : Type where
  | config
  | crawlFail (e : CrawlErr)
deriving DecidableEq

/-- Result of constructing a `Crawler` and calling `crawl` (the `main`
flow): tree or error, the candidate roots probed (depth-0 requests), and
the relative paths listed at depth 1 during the walk. -/
structure ShareOut where
  result : Except ShareErr (List DirTree)
  probed : List String
  queried : List String
  idx : Nat

/-- `Crawler(base, token)` followed by `.crawl()`: endpoint resolution
happens inside the constructor, before any traversal. -/
def crawlShare (base token : String) (maxRetries : Nat) (backoff : ℚ)
    (fuel : Nat) (script : Nat → Outcome) (idx : Nat) : ShareOut :=
  let r := resolveRoot base token script idx
  match r.root with
  | .error _ => ⟨.error .config, r.probed, [], r.idx⟩
  | .ok root =>
    let cfg : Cfg := ⟨root, shareBaseFor base token, maxRetries, backoff⟩
    let o := crawl cfg script fuel r.idx
    match o.result with
    | .error e => ⟨.error (.crawlFail e), r.probed, o.queried, o.idx⟩
    | .ok ts => ⟨.ok ts, r.probed, o.queried, o.idx⟩

mutual
/-- Replace the text of every `getcontentlength` element in a document
with `t`, leaving tags, structure and all other text unchanged (statement
apparatus for the claim that the size field is independent of the rest of
the node). -/
def setClText (t : String) : XmlElem → XmlElem
  | .mk tag tx ch =>
    .mk tag (if tag = tagContentlength then some t else tx) (setClTextL t ch)
def setClTextL (t : String) : XmlList → XmlList
  | .nil => .nil
  | .cons c cs => .cons (setClText t c) (setClTextL t cs)
end

/-! ### Concrete inputs used in the closed theorems below -/

/-- The resolved WebDAV root for the example host. -/
def exWr : String := webdavRootFor "https://h"

/-- The share's browser base URL for the example host and token. -/
def exSb : String := shareBaseFor "https://h" "T"

/-- A `prop` block marking a collection. -/
def propDirEx : XmlElem :=
  .mk tagProp none (.cons (.mk tagResourcetype none
    (.cons (.mk tagCollection none .nil) .nil)) .nil)

/-- A `prop` block for a plain file of 3 bytes. -/
def propFileEx : XmlElem :=
  .mk tagProp none (.cons (.mk tagResourcetype none .nil)
    (.cons (.mk tagContentlength (some "3") .nil) .nil))

/-- The multi-status entry for directory `A/`. -/
def respAEx : XmlElem :=
  .mk tagResponse none (.cons (.mk tagHref (some "/public.php/webdav/A/") .nil)
    (.cons propDirEx .nil))

/-- The multi-status self-entry of the share root. -/
def respSelfRootEx : XmlElem :=
  .mk tagResponse none (.cons (.mk tagHref (some "/public.php/webdav/") .nil)
    (.cons propDirEx .nil))

/-- The multi-status entry for the file `A/B/file.pdf`. -/
def respFileEx : XmlElem :=
  .mk tagResponse none
    (.cons (.mk tagHref (some "/public.php/webdav/A/B/file.pdf") .nil)
      (.cons propFileEx .nil))

/-- Depth-1 body listing only directory `A/` (the self-referential
response a cyclic server returns for `A/` itself). -/
def bodyAEx : XmlElem := .mk tagMultistatus none (.cons respAEx .nil)

/-- Depth-1 body of the root: its self-entry plus directory `A/`. -/
def bodyRootAEx : XmlElem :=
  .mk tagMultistatus none (.cons respSelfRootEx (.cons respAEx .nil))

/-- A server that always answers 207 with the listing of `A/`. -/
def scriptAEx : Nat → Outcome := fun _ => .resp 207 none bodyAEx

/-- A cyclic server: the root lists `A/`, and `A/` lists itself. -/
def scriptCycEx : Nat → Outcome := fun i =>
  if i = 0 then .resp 207 none bodyRootAEx else .resp 207 none bodyAEx

/-- The node parsed from `respAEx`. -/
def nodeAEx : Node :=
  { name := "A", path := "A", type := "directory", size := none,
    last_modified := none, content_type := none, web_url := none }

/-- The node parsed from `respFileEx`. -/
def nodeFileEx : Node :=
  { name := "file.pdf", path := "A/B/file.pdf", type := "file", size := some 3,
    last_modified := none, content_type := none,
    web_url := some "https://h/index.php/s/T/download?path=/A/B&files=file.pdf" }

/-- A server that always answers 200 (non-207, non-redirect, non-error). -/
def script200Ex : Nat → Outcome := fun _ => .resp 200 none bodyAEx

/-- A server whose first attempt raises and whose second answers 500. -/
def scriptFailEx : Nat → Outcome := fun i =>
  if i = 0 then .exc 7 else .resp 500 none bodyAEx

/-- A transport failing twice, then delivering a 207. -/
def scriptRetryEx : Nat → Outcome := fun i =>
  if i = 0 then .exc 1 else if i = 1 then .exc 2 else .resp 207 none bodyAEx

/-- A server that always redirects: hop 1 carries a Location, hop 2 does
not, hop 3 carries one again. -/
def scriptRedirEx : Nat → Outcome := fun i =>
  if i = 0 then .resp 301 (some "https://h/L1") bodyAEx
  else if i = 1 then .resp 302 none bodyAEx
  else .resp 307 (some "https://h/L3") bodyAEx

/-- A server that is unreachable (every request raises). -/
def scriptDownEx : Nat → Outcome := fun _ => .exc 3

/-- The invariant threaded through `walk`: relative to the incoming
visited set `v`, the listed paths are pairwise distinct, none of them was
already visited, each of them is marked visited on return, and the visited
set only grows. -/
def WInv (v : List String) (o : WalkOut) : Prop :=
  o.queried.Nodup
    ∧ (∀ q ∈ o.queried, q ∉ v)
    ∧ (∀ q ∈ o.queried, q ∈ o.visited)
    ∧ (∀ x ∈ v, x ∈ o.visited)

/-! ### Claim theorems -/

/-- Claim C1, code-bug evidence.  Listing the nested directory `A/` of the
share keeps the queried collection's own self-entry in the returned child
list: the single returned node has relative path `"A"`, which equals the
queried directory's relative path.  The skip condition in `list_dir`
parses as `path == "" or (href == root and name == "")`, so only the
root's self-entry is ever filtered, contradicting the comment right above
it ("Skip the collection itself"). -/
theorem C1_list_dir_keeps_nested_self_entry :
    (listDir ⟨exWr, exSb, 3, (4 : ℚ)/5⟩ scriptAEx 0 (exWr ++ "A/")).result
        = .ok [nodeAEx]
      ∧ nodeAEx.path = relOf exWr (exWr ++ "A/") :=
  ⟨rfl, by decide⟩

/-- Claim C7.  When the depth-0 probe of the first candidate root succeeds
(status 207, 301 or 302), resolution returns the first candidate, consumes
exactly one request, and the probed list contains only the first
candidate — the second is never probed. -/
theorem C7_first_probe_success_stops
    (base token : String) (script : Nat → Outcome) (idx : Nat)
    (h : probeOk (script idx) = true) :
    resolveRoot base token script idx
      = ⟨.ok (webdavRootFor base), idx + 1, [webdavRootFor base]⟩ := by
  simp [resolveRoot, h]

theorem C7_first_probe_success_stops_witness :
    resolveRoot "https://h" "T" scriptAEx 0
      = ⟨.ok (webdavRootFor "https://h"), 1, [webdavRootFor "https://h"]⟩ :=
  C7_first_probe_success_stops "https://h" "T" scriptAEx 0 (by decide)

/-- Claim C8.  When both candidate probes fail, the pipeline stops with the
configuration error before any traversal: the result is the constructor's
`RuntimeError`, no depth-1 listing is ever issued, and exactly the two
candidate roots were probed. -/
theorem C8_both_probes_fail_aborts
    (base token : String) (maxRetries : Nat) (backoff : ℚ) (fuel : Nat)
    (script : Nat → Outcome) (idx : Nat)
    (h1 : probeOk (script idx) = false)
    (h2 : probeOk (script (idx + 1)) = false) :
    (crawlShare base token maxRetries backoff fuel script idx).result
        = .error .config
      ∧ (crawlShare base token maxRetries backoff fuel script idx).queried = []
      ∧ (crawlShare base token maxRetries backoff fuel script idx).probed
          = [webdavRootFor base, altRootFor base token] := by
  simp [crawlShare, resolveRoot, h1, h2]

theorem C8_both_probes_fail_aborts_witness :
    (crawlShare "https://h" "T" 3 ((4 : ℚ)/5) 5 scriptDownEx 0).result
        = .error .config
      ∧ (crawlShare "https://h" "T" 3 ((4 : ℚ)/5) 5 scriptDownEx 0).queried = []
      ∧ (crawlShare "https://h" "T" 3 ((4 : ℚ)/5) 5 scriptDownEx 0).probed
          = [webdavRootFor "https://h", altRootFor "https://h" "T"] :=
  C8_both_probes_fail_aborts "https://h" "T" 3 ((4 : ℚ)/5) 5 scriptDownEx 0
    (by decide) (by decide)

/-- Claim C4.  With 3 retries and a transport that raises on the first two
attempts and delivers a 207 on the third, exactly three attempts are
issued (all against the same URL), the sleeps are `backoff * 1` then
`backoff * 2`, and the third attempt's body is returned. -/
theorem C4_retry_backoff_sequence
    (backoff : ℚ) (script : Nat → Outcome) (idx : Nat) (href : String)
    (e1 e2 : Nat) (loc : Option String) (body : XmlElem)
    (h0 : script idx = .exc e1)
    (h1 : script (idx + 1) = .exc e2)
    (h2 : script (idx + 2) = .resp 207 loc body) :
    propfind 3 backoff script idx href
      = ⟨.ok body, idx + 3, [href, href, href], [backoff * 1, backoff * 2]⟩ := by
  simp [propfind, propfindGo, h0, h1, h2]

theorem C4_retry_backoff_sequence_witness :
    propfind 3 ((4 : ℚ)/5) scriptRetryEx 0 "https://h/x"
      = ⟨.ok bodyAEx, 3, ["https://h/x", "https://h/x", "https://h/x"],
          [(4 : ℚ)/5 * 1, (4 : ℚ)/5 * 2]⟩ :=
  C4_retry_backoff_sequence ((4 : ℚ)/5) scriptRetryEx 0 "https://h/x"
    1 2 none bodyAEx rfl rfl rfl

/-- Claim C3, counterexample.  A sequence in which no attempt returns a 207
body does not necessarily propagate an error: a 200 response is neither a
redirect nor an error status, so `raise_for_status()` does not raise and
its body is returned as success on the first attempt. -/
theorem C3_counterexample_status_200_returned :
    (∀ i, i < 3 → Outcome.statusOf (script200Ex i) ≠ some 207)
      ∧ (propfind 3 ((4 : ℚ)/5) script200Ex 0 "https://h/x").result
          = .ok bodyAEx :=
  ⟨by decide, rfl⟩

/-- Associativity of string concatenation (helper). -/
theorem strAppendAssoc (a b c : String) : a ++ b ++ c = a ++ (b ++ c) := by
  cases a with
  | mk da =>
    cases b with
    | mk db =>
      cases c with
      | mk dc =>
        show String.mk (da ++ db ++ dc) = String.mk (da ++ (db ++ dc))
        rw [List.append_assoc]

/-- Claim C6.  A parsed node's kind is `directory` exactly when the entry's
`prop` block (the one `_node_from_prop` locates) contains a collection
marker inside its `resourcetype`, and `file` exactly otherwise. -/
theorem C6_kind_iff_collection_marker
    (webdavRoot shareBase rootHref : String) (resp : XmlElem) (n : Node)
    (p : XmlElem)
    (hn : nodeFromProp webdavRoot shareBase rootHref resp = some n)
    (hp : findDescL tagProp resp.children = some p) :
    (n.type = "directory" ↔ isCollection p = true)
      ∧ (n.type = "file" ↔ isCollection p = false) := by
  unfold nodeFromProp at hn
  by_cases h0 : findtext tagHref "" resp.children = ""
  · simp [h0] at hn
  · rw [if_neg h0, hp] at hn
    have hn' := Option.some.inj hn
    subst hn'
    cases hc : isCollection p <;> simp [hc]

theorem C6_kind_iff_collection_marker_witness :
    (nodeAEx.type = "directory" ↔ isCollection propDirEx = true)
      ∧ (nodeAEx.type = "file" ↔ isCollection propDirEx = false) :=
  C6_kind_iff_collection_marker exWr exSb (exWr ++ "A/") respAEx nodeAEx
    propDirEx rfl rfl

/-- Claim C2, counterexample.  For the file node with path `A/B/file.pdf`
the generated `web_url` keeps the folder's slashes literal
(`download?path=/A/B&files=file.pdf`): `quote(parent, safe="/")` never
escapes `/`, so the claimed `download?path=%2FA%2FB&files=file.pdf` is not
produced. -/
theorem C2_counterexample_slash_not_escaped :
    nodeFromProp exWr exSb (exWr ++ "A/B/") respFileEx = some nodeFileEx
      ∧ nodeFileEx.web_url = some (exSb ++ "download?path=/A/B&files=file.pdf")
      ∧ nodeFileEx.web_url
          ≠ some (exSb ++ "download?path=%2FA%2FB&files=file.pdf") :=
  ⟨rfl, by decide, by decide⟩

/-- `_browser_url_for_file` on the concrete path of the claim, with a
symbolic share base (helper). -/
theorem browserUrl_A_B_file (sb : String) :
    browserUrlForFile sb "A/B/file.pdf"
      = sb ++ "download?path=/A/B&files=file.pdf" := by
  have h1 : browserUrlForFile sb "A/B/file.pdf"
      = sb ++ "download" ++ "?path=" ++ "/A/B" ++ "&files=" ++ "file.pdf" := rfl
  rw [h1, strAppendAssoc, strAppendAssoc, strAppendAssoc, strAppendAssoc]
  rw [show ("download" ++ ("?path=" ++ ("/A/B" ++ ("&files=" ++ "file.pdf")))
      : String) = "download?path=/A/B&files=file.pdf" from by decide]

/-- Claim C2, amended.  For every file node with relative path
`A/B/file.pdf` the generated `web_url` is the share base followed by
`download?path=/A/B&files=file.pdf` — the folder's percent-encoding is
slash-preserving, so the slashes stay literal rather than becoming `%2F`;
and in general, for every multi-segment path, the URL is
`{share_base}download?path={quote(parent, safe slash)}&files={quote(filename)}`. -/
theorem C2_web_url_format_amended :
    (∀ webdavRoot shareBase rootHref resp n,
        nodeFromProp webdavRoot shareBase rootHref resp = some n →
        n.path = "A/B/file.pdf" → n.type = "file" →
        n.web_url = some (shareBase ++ "download?path=/A/B&files=file.pdf"))
      ∧ (∀ shareBase path,
          2 ≤ (splitOnSlash (pyStripSlash path).toList).length →
          browserUrlForFile shareBase path
            = shareBase ++ "download" ++ "?path="
              ++ pyQuote ['/'] (String.mk ('/' :: List.intercalate ['/']
                  (splitOnSlash (pyStripSlash path).toList).dropLast))
              ++ "&files=" ++ pyQuote ['/'] (String.mk
                  ((splitOnSlash (pyStripSlash path).toList).getLastD []))) := by
  constructor
  · intro wr sb rh resp n hn hpath htype
    unfold nodeFromProp at hn
    by_cases h0 : findtext tagHref "" resp.children = ""
    · simp [h0] at hn
    · rw [if_neg h0] at hn
      cases hp : findDescL tagProp resp.children with
      | none => simp [hp] at hn
      | some p =>
        rw [hp] at hn
        have hn' := Option.some.inj hn
        subst hn'
        dsimp only at hpath htype ⊢
        cases hc : isCollection p with
        | true => simp [hc] at htype
        | false => simp only [hc, hpath, browserUrl_A_B_file]; simp
  · intro sb path h2
    simp only [browserUrlForFile]
    rw [if_neg (by omega : ¬ (splitOnSlash (pyStripSlash path).toList).length = 1)]

theorem C2_web_url_format_witness :
    nodeFileEx.web_url = some (exSb ++ "download?path=/A/B&files=file.pdf")
      ∧ browserUrlForFile exSb "A/B/file.pdf"
          = exSb ++ "download" ++ "?path="
            ++ pyQuote ['/'] (String.mk ('/' :: List.intercalate ['/']
                (splitOnSlash (pyStripSlash "A/B/file.pdf").toList).dropLast))
            ++ "&files=" ++ pyQuote ['/'] (String.mk
                ((splitOnSlash (pyStripSlash "A/B/file.pdf").toList).getLastD [])) :=
  ⟨C2_web_url_format_amended.1 exWr exSb (exWr ++ "A/B/") respFileEx nodeFileEx
      rfl (by decide) (by decide),
    C2_web_url_format_amended.2 exSb "A/B/file.pdf" (by decide)⟩

/-- When every one of the remaining attempts fails (transport exception or
4xx/5xx status), the retry loop raises the error of the last attempt
(helper). -/
theorem propfindGo_allFail (backoff : ℚ) (script : Nat → Outcome) :
    ∀ rem attempt idx href lastExc, 0 < rem →
      (∀ i, i < rem → (script (idx + i)).isFailure = true) →
      (propfindGo backoff script rem attempt idx href lastExc).result
        = .error (some ((script (idx + rem - 1)).errOf)) := by
  intro rem
  induction rem with
  | zero => intro _ _ _ _ h; omega
  | succ rem ih =>
    intro attempt idx href lastExc _ hfail
    have h0 : (script idx).isFailure = true := by
      have := hfail 0 (Nat.succ_pos rem)
      rwa [Nat.add_zero] at this
    cases hsc : script idx with
    | exc e =>
      simp only [propfindGo, hsc]
      cases rem with
      | zero =>
        simp only [propfindGo]
        rw [show idx + 1 - 1 = idx by omega, hsc]
        rfl
      | succ r =>
        have hfail' : ∀ i, i < r + 1 → (script (idx + 1 + i)).isFailure = true := by
          intro i hi
          have h := hfail (i + 1) (by omega)
          rwa [show idx + (i + 1) = idx + 1 + i by omega] at h
        have h := ih (attempt + 1) (idx + 1) href (some (.transport e))
          (Nat.succ_pos r) hfail'
        rw [show idx + 1 + (r + 1) - 1 = idx + (r + 1 + 1) - 1 by omega] at h
        exact h
    | resp st loc body =>
      have hst : 400 ≤ st ∧ st < 600 := by
        rw [hsc] at h0
        simpa [Outcome.isFailure] using h0
      have hn207 : ¬ st = 207 := by omega
      have hnred : ¬ st ∈ redirectStatuses := by
        intro hm
        simp [redirectStatuses] at hm
        omega
      simp only [propfindGo, hsc]
      rw [if_neg hn207, if_neg hnred, if_pos hst]
      cases rem with
      | zero =>
        simp only [propfindGo]
        rw [show idx + 1 - 1 = idx by omega, hsc]
        rfl
      | succ r =>
        have hfail' : ∀ i, i < r + 1 → (script (idx + 1 + i)).isFailure = true := by
          intro i hi
          have h := hfail (i + 1) (by omega)
          rwa [show idx + (i + 1) = idx + 1 + i by omega] at h
        have h := ih (attempt + 1) (idx + 1) href (some (.httpStatus st))
          (Nat.succ_pos r) hfail'
        rw [show idx + 1 + (r + 1) - 1 = idx + (r + 1 + 1) - 1 by omega] at h
        exact h

/-- Claim C3, amended.  When all `max_retries` attempts of one query fail —
failure meaning a transport exception or an HTTP error status (4xx/5xx)
after redirect handling, the spec's own definition — the query raises the
error recorded on the last attempt, and a crawl whose root query so fails
propagates exactly that error and returns no tree. -/
theorem C3_all_attempts_fail_amended
    (cfg : Cfg) (script : Nat → Outcome) (idx fuel : Nat) (href : String)
    (hmr : 0 < cfg.maxRetries) (hfuel : 0 < fuel)
    (hfail : ∀ i, i < cfg.maxRetries → (script (idx + i)).isFailure = true) :
    (propfind cfg.maxRetries cfg.backoff script idx href).result
        = .error (some ((script (idx + cfg.maxRetries - 1)).errOf))
      ∧ (crawl cfg script fuel idx).result
        = .error (.request (some ((script (idx + cfg.maxRetries - 1)).errOf))) := by
  have h1 := propfindGo_allFail cfg.backoff script cfg.maxRetries 1 idx href none
    hmr hfail
  refine ⟨h1, ?_⟩
  have h2 := propfindGo_allFail cfg.backoff script cfg.maxRetries 1 idx
    cfg.webdavRoot none hmr hfail
  obtain ⟨f, rfl⟩ : ∃ f, fuel = f + 1 := ⟨fuel - 1, by omega⟩
  simp only [crawl, walk, List.not_mem_nil, if_false, listDir, propfind, h2]

/-- One child step preserves the walk invariant (helper). -/
theorem walkChildStep_inv (cfg : Cfg) (script : Nat → Outcome) (fuel : Nat)
    (ihw : ∀ v idx href, WInv v (walk cfg script fuel v idx href))
    (v0 : List String) (acc : WalkOut) (c : Node)
    (hacc : WInv v0 acc) :
    WInv v0 (walkChildStep cfg (fun w i h => walk cfg script fuel w i h) acc c) := by
  obtain ⟨ha1, ha2, ha3, ha4⟩ := hacc
  unfold walkChildStep
  cases hres : acc.result with
  | error e => exact ⟨ha1, ha2, ha3, ha4⟩
  | ok ts =>
    dsimp only
    by_cases hdir : c.type = "directory"
    · rw [if_pos hdir]
      have h1 := ihw acc.visited acc.idx (urljoin cfg.webdavRoot (c.path ++ "/"))
      obtain ⟨hb1, hb2, hb3, hb4⟩ := h1
      have hnodup : (acc.queried
          ++ (walk cfg script fuel acc.visited acc.idx
                (urljoin cfg.webdavRoot (c.path ++ "/"))).queried).Nodup := by
        refine List.Nodup.append ha1 hb1 ?_
        intro a hmem hmem'
        exact hb2 a hmem' (ha3 a hmem)
      have hnotin : ∀ q ∈ acc.queried
          ++ (walk cfg script fuel acc.visited acc.idx
                (urljoin cfg.webdavRoot (c.path ++ "/"))).queried, q ∉ v0 := by
        intro q hq
        rcases List.mem_append.mp hq with hqa | hqb
        · exact ha2 q hqa
        · intro hv
          exact hb2 q hqb (ha4 q hv)
      have hinvis : ∀ q ∈ acc.queried
          ++ (walk cfg script fuel acc.visited acc.idx
                (urljoin cfg.webdavRoot (c.path ++ "/"))).queried,
          q ∈ (walk cfg script fuel acc.visited acc.idx
                (urljoin cfg.webdavRoot (c.path ++ "/"))).visited := by
        intro q hq
        rcases List.mem_append.mp hq with hqa | hqb
        · exact hb4 q (ha3 q hqa)
        · exact hb3 q hqb
      have hgrow : ∀ x ∈ v0,
          x ∈ (walk cfg script fuel acc.visited acc.idx
                (urljoin cfg.webdavRoot (c.path ++ "/"))).visited := by
        intro x hx
        exact hb4 x (ha4 x hx)
      cases hr1 : (walk cfg script fuel acc.visited acc.idx
          (urljoin cfg.webdavRoot (c.path ++ "/"))).result with
      | error e => exact ⟨hnodup, hnotin, hinvis, hgrow⟩
      | ok subts => exact ⟨hnodup, hnotin, hinvis, hgrow⟩
    · rw [if_neg hdir]
      exact ⟨ha1, ha2, ha3, ha4⟩

/-- The fold over the children preserves the walk invariant (helper). -/
theorem walkFold_inv (cfg : Cfg) (script : Nat → Outcome) (fuel : Nat)
    (ihw : ∀ v idx href, WInv v (walk cfg script fuel v idx href))
    (v0 : List String) :
    ∀ (nodes : List Node) (acc : WalkOut), WInv v0 acc →
      WInv v0 (List.foldl
        (walkChildStep cfg (fun w i h => walk cfg script fuel w i h)) acc nodes) := by
  intro nodes
  induction nodes with
  | nil => intro acc hacc; exact hacc
  | cons c cs ihl =>
    intro acc hacc
    rw [List.foldl_cons]
    exact ihl _ (walkChildStep_inv cfg script fuel ihw v0 acc c hacc)

/-- The walk invariant holds for every call (helper): relative to the
incoming visited set, the listed relative paths are pairwise distinct,
none was already visited, and all are marked visited on return. -/
theorem walk_inv (cfg : Cfg) (script : Nat → Outcome) :
    ∀ fuel v idx href, WInv v (walk cfg script fuel v idx href) := by
  intro fuel
  induction fuel with
  | zero =>
    intro v idx href
    by_cases h : relOf cfg.webdavRoot href ∈ v <;>
      simp [walk, h, WInv]
  | succ fuel ih =>
    intro v idx href
    by_cases hv : relOf cfg.webdavRoot href ∈ v
    · simp [walk, hv, WInv]
    · simp only [walk, if_neg hv]
      cases hld : listDir cfg script idx href with
      | mk res idx' =>
        cases res with
        | error e =>
          dsimp only
          refine ⟨List.nodup_cons.mpr ⟨List.not_mem_nil _, List.nodup_nil⟩, ?_, ?_, ?_⟩
          · intro q hq
            rcases List.mem_singleton.mp hq with rfl
            exact hv
          · intro q hq
            rcases List.mem_singleton.mp hq with rfl
            exact List.mem_cons_self _ _
          · intro x hx
            exact List.mem_cons_of_mem _ hx
        | ok nodes =>
          dsimp only
          have hstart : WInv (relOf cfg.webdavRoot href :: v)
              ⟨.ok [], relOf cfg.webdavRoot href :: v, idx', []⟩ := by
            refine ⟨List.nodup_nil, ?_, ?_, ?_⟩
            · intro q hq; cases hq
            · intro q hq; cases hq
            · intro x hx; exact hx
          have hfold := walkFold_inv cfg script fuel ih
            (relOf cfg.webdavRoot href :: v) nodes _ hstart
          obtain ⟨hf1, hf2, hf3, hf4⟩ := hfold
          refine ⟨?_, ?_, ?_, ?_⟩
          · refine List.nodup_cons.mpr ⟨?_, hf1⟩
            intro hmem
            exact hf2 _ hmem (List.mem_cons_self _ _)
          · intro q hq
            rcases List.mem_cons.mp hq with rfl | hq'
            · exact hv
            · intro hqv
              exact hf2 q hq' (List.mem_cons_of_mem _ hqv)
          · intro q hq
            rcases List.mem_cons.mp hq with rfl | hq'
            · exact hf4 _ (List.mem_cons_self _ _)
            · exact hf3 q hq'
          · intro x hx
            exact hf4 x (List.mem_cons_of_mem _ hx)

/-- Claim C5.  During one crawl no relative path is listed twice: reaching
an already visited relative path immediately returns an empty child list
without issuing any request, the relative paths listed by a whole crawl
are pairwise distinct, and on the concrete cyclic server (whose `A/`
listing references `A/` itself) the crawl terminates with the expected
finite tree. -/
theorem C5_no_path_queried_twice :
    (∀ cfg script fuel v idx href,
        relOf cfg.webdavRoot href ∈ v →
        walk cfg script fuel v idx href = ⟨.ok [], v, idx, []⟩)
      ∧ (∀ cfg script fuel idx, (crawl cfg script fuel idx).queried.Nodup)
      ∧ (crawl ⟨exWr, exSb, 3, (4 : ℚ)/5⟩ scriptCycEx 5 0).result
          = .ok [DirTree.mk nodeAEx (some [DirTree.mk nodeAEx (some [])])] := by
  refine ⟨?_, ?_, rfl⟩
  · intro cfg script fuel v idx href h
    cases fuel <;> simp [walk, h]
  · intro cfg script fuel idx
    exact (walk_inv cfg script fuel [] idx cfg.webdavRoot).1

theorem C5_no_path_queried_twice_witness :
    walk ⟨exWr, exSb, 3, (4 : ℚ)/5⟩ scriptAEx 3 ["A"] 0 (exWr ++ "A/")
      = ⟨.ok [], ["A"], 0, []⟩ :=
  C5_no_path_queried_twice.1 ⟨exWr, exSb, 3, (4 : ℚ)/5⟩ scriptAEx 3 ["A"] 0
    (exWr ++ "A/") (by decide)

/-- `setClText` preserves tags (helper). -/
theorem setClText_tag (t : String) (e : XmlElem) : (setClText t e).tag = e.tag := by
  cases e
  rfl

/-- `setClText` maps the child list through `setClTextL` (helper). -/
theorem setClText_children (t : String) (e : XmlElem) :
    (setClText t e).children = setClTextL t e.children := by
  cases e
  rfl

/-- The text after `setClText` (helper). -/
theorem setClText_text (t : String) (e : XmlElem) :
    (setClText t e).text = if e.tag = tagContentlength then some t else e.text := by
  cases e
  rfl

/-- A found child carries the searched tag (helper). -/
theorem findChild_tag_eq (tag : String) :
    ∀ (ch : XmlList) (c : XmlElem), findChild tag ch = some c → c.tag = tag
  | .nil, _, h => Option.noConfusion h
  | .cons x xs, c, h => by
    simp only [findChild] at h
    by_cases hx : x.tag = tag
    · rw [if_pos hx] at h
      cases h
      exact hx
    · rw [if_neg hx] at h
      exact findChild_tag_eq tag xs c h

/-- `findChild` commutes with `setClTextL` (helper). -/
theorem findChild_setClTextL (tag t : String) :
    ∀ ch : XmlList, findChild tag (setClTextL t ch)
      = (findChild tag ch).map (setClText t)
  | .nil => rfl
  | .cons c cs => by
    simp only [setClTextL, findChild, setClText_tag]
    by_cases h : c.tag = tag
    · simp [h]
    · simp [h, findChild_setClTextL tag t cs]

mutual
/-- `findDesc` commutes with `setClText` (helper). -/
theorem findDesc_setClText (tag t : String) :
    ∀ e : XmlElem, findDesc tag (setClText t e) = (findDesc tag e).map (setClText t)
  | .mk tg tx ch => by
    simp only [setClText, findDesc]
    by_cases h : tg = tag
    · simp [h, setClText]
    · simp [h, findDescL_setClTextL tag t ch]
/-- `findDescL` commutes with `setClTextL` (helper). -/
theorem findDescL_setClTextL (tag t : String) :
    ∀ ch : XmlList, findDescL tag (setClTextL t ch)
      = (findDescL tag ch).map (setClText t)
  | .nil => rfl
  | .cons c cs => by
    simp only [setClTextL, findDescL]
    rw [findDesc_setClText tag t c]
    cases h : findDesc tag c with
    | some r => simp
    | none => simp [findDescL_setClTextL tag t cs]
end

/-- `findtext` for a tag other than `getcontentlength` is unchanged by
`setClTextL` (helper). -/
theorem findtext_setClTextL_ne (tag dflt t : String)
    (h : tag ≠ tagContentlength) (ch : XmlList) :
    findtext tag dflt (setClTextL t ch) = findtext tag dflt ch := by
  unfold findtext
  rw [findChild_setClTextL]
  cases hc : findChild tag ch with
  | none => rfl
  | some c =>
    simp only [Option.map_some']
    rw [setClText_text, findChild_tag_eq tag ch c hc, if_neg h]

/-- `findtext` for `getcontentlength` after `setClTextL` yields the new
text whenever the element is present (helper). -/
theorem findtext_cl_setClTextL (t : String) (ch : XmlList) :
    findtext tagContentlength "" (setClTextL t ch)
      = (match findChild tagContentlength ch with
         | none => ""
         | some _ => t) := by
  unfold findtext
  rw [findChild_setClTextL]
  cases hc : findChild tagContentlength ch with
  | none => rfl
  | some c =>
    simp only [Option.map_some']
    rw [setClText_text, findChild_tag_eq tagContentlength ch c hc, if_pos rfl]
    rfl

/-- `isCollection` is unchanged by `setClText` (helper). -/
theorem isCollection_setClText (t : String) (p : XmlElem) :
    isCollection (setClText t p) = isCollection p := by
  unfold isCollection
  rw [setClText_children, findChild_setClTextL]
  cases hc : findChild tagResourcetype p.children with
  | none => rfl
  | some rt =>
    simp only [Option.map_some']
    rw [setClText_children, findChild_setClTextL]
    cases findChild tagCollection rt.children <;> rfl

/-- Claim C9.  Replacing the `getcontentlength` text of a response entry by
any non-numeric string changes exactly the parsed node's `size` field to
absent: parsing still succeeds (the same entries yield a node), and name,
path, kind, last-modified, content-type and web URL are untouched. -/
theorem C9_nonnumeric_size_absent
    (webdavRoot shareBase rootHref : String) (resp : XmlElem) (t : String)
    (ht : pyIsDigits t = false) :
    nodeFromProp webdavRoot shareBase rootHref (setClText t resp)
      = (nodeFromProp webdavRoot shareBase rootHref resp).map
          (fun n => { n with size := none }) := by
  unfold nodeFromProp
  rw [setClText_children,
    findtext_setClTextL_ne tagHref "" t (by decide) resp.children]
  by_cases h0 : findtext tagHref "" resp.children = ""
  · rw [if_pos h0, if_pos h0]
    rfl
  · rw [if_neg h0, if_neg h0, findDescL_setClTextL]
    cases hp : findDescL tagProp resp.children with
    | none => rfl
    | some p =>
      simp only [Option.map_some']
      rw [isCollection_setClText, setClText_children,
        findtext_cl_setClTextL,
        findtext_setClTextL_ne tagLastmodified "" t (by decide) p.children,
        findtext_setClTextL_ne tagContenttype "" t (by decide) p.children]
      cases hcl : findChild tagContentlength p.children with
      | none => simp [pyIsDigits]
      | some c => simp [ht]

theorem C9_nonnumeric_size_absent_witness :
    nodeFromProp exWr exSb (exWr ++ "A/B/") (setClText "abc" respFileEx)
      = (nodeFromProp exWr exSb (exWr ++ "A/B/") respFileEx).map
          (fun n => { n with size := none }) :=
  C9_nonnumeric_size_absent exWr exSb (exWr ++ "A/B/") respFileEx "abc" (by decide)

/-- When every remaining attempt is answered by a redirect, the retry loop
follows the Location of each hop (keeping the URL when the header is
absent), issues exactly one request per remaining attempt, never sleeps,
and finally raises the recorded exception (helper). -/
theorem propfindGo_allRedirect (backoff : ℚ) (script : Nat → Outcome) :
    ∀ rem attempt idx href lastExc,
      (∀ i, i < rem → (script (idx + i)).isRedirect = true) →
      ((propfindGo backoff script rem attempt idx href lastExc).result
          = .error lastExc
        ∧ (propfindGo backoff script rem attempt idx href lastExc).sleeps = []
        ∧ (propfindGo backoff script rem attempt idx href lastExc).queries.length
            = rem
        ∧ (propfindGo backoff script rem attempt idx href lastExc).idx = idx + rem
        ∧ (0 < rem →
            (propfindGo backoff script rem attempt idx href lastExc).queries.head?
              = some href)
        ∧ (∀ j hcur, j + 1 < rem →
            (propfindGo backoff script rem attempt idx href
                lastExc).queries[j]? = some hcur →
            (propfindGo backoff script rem attempt idx href
                lastExc).queries[j + 1]?
              = some (((script (idx + j)).locOf).getD hcur))) := by
  intro rem
  induction rem with
  | zero =>
    intro attempt idx href lastExc _
    refine ⟨rfl, rfl, rfl, rfl, ?_, ?_⟩
    · intro h
      exact absurd h (by omega)
    · intro j hcur hj
      omega
  | succ rem ih =>
    intro attempt idx href lastExc hred
    have h0 : (script idx).isRedirect = true := by
      have := hred 0 (Nat.succ_pos rem)
      rwa [Nat.add_zero] at this
    cases hsc : script idx with
    | exc e =>
      rw [hsc] at h0
      simp [Outcome.isRedirect] at h0
    | resp st loc body =>
      rw [hsc] at h0
      simp only [Outcome.isRedirect, decide_eq_true_eq] at h0
      have hn207 : ¬ st = 207 := by
        have h1 := h0
        simp [redirectStatuses] at h1
        rcases h1 with h | h | h | h | h <;> omega
      have hred' : ∀ i, i < rem → (script (idx + 1 + i)).isRedirect = true := by
        intro i hi
        have h := hred (i + 1) (by omega)
        rwa [show idx + (i + 1) = idx + 1 + i by omega] at h
      have hx := ih (attempt + 1) (idx + 1) (loc.getD href) lastExc hred'
      obtain ⟨ih1, ih2, ih3, ih4, ih5, ih6⟩ := hx
      simp only [propfindGo, hsc]
      rw [if_neg hn207, if_pos h0]
      refine ⟨ih1, ih2, ?_, ?_, ?_, ?_⟩
      · dsimp only
        rw [List.length_cons, ih3]
      · dsimp only
        rw [ih4]
        omega
      · intro _
        rfl
      · intro j hcur hj hget
        cases j with
        | zero =>
          rw [List.getElem?_cons_zero] at hget
          cases hget
          rw [List.getElem?_cons_succ]
          have hpos : 0 < rem := by omega
          have hh := ih5 hpos
          have hsc0 : script (idx + 0) = Outcome.resp st loc body := hsc
          rw [hsc0]
          cases hq : (propfindGo backoff script rem (attempt + 1) (idx + 1)
              (loc.getD href) lastExc).queries with
          | nil =>
            rw [hq] at hh
            simp at hh
          | cons a as =>
            rw [hq, List.head?_cons] at hh
            rw [List.getElem?_cons_zero]
            exact hh
        | succ k =>
          rw [List.getElem?_cons_succ] at hget
          rw [List.getElem?_cons_succ]
          have h := ih6 k hcur (by omega) hget
          rwa [show idx + 1 + k = idx + (k + 1) by omega] at h

/-- Claim C10.  In the retry loop every redirect response consumes exactly
one attempt of the `max_retries` budget with no sleep in between, so an
all-redirect query issues exactly `max_retries` requests and then raises
(`raise last_exc` with nothing recorded); each hop's target is the
Location header when present and the unchanged URL when absent. -/
theorem C10_redirect_budget
    (maxRetries : Nat) (backoff : ℚ) (script : Nat → Outcome) (idx : Nat)
    (href : String)
    (hred : ∀ i, i < maxRetries → (script (idx + i)).isRedirect = true) :
    (propfind maxRetries backoff script idx href).result = .error none
      ∧ (propfind maxRetries backoff script idx href).sleeps = []
      ∧ (propfind maxRetries backoff script idx href).queries.length = maxRetries
      ∧ (propfind maxRetries backoff script idx href).idx = idx + maxRetries
      ∧ (0 < maxRetries →
          (propfind maxRetries backoff script idx href).queries.head? = some href)
      ∧ (∀ j hcur, j + 1 < maxRetries →
          (propfind maxRetries backoff script idx href).queries[j]? = some hcur →
          (propfind maxRetries backoff script idx href).queries[j + 1]?
            = some (((script (idx + j)).locOf).getD hcur)) :=
  propfindGo_allRedirect backoff script maxRetries 1 idx href none hred

theorem C10_redirect_budget_witness :
    (propfind 3 ((4 : ℚ)/5) scriptRedirEx 0 "https://h/x").result = .error none
      ∧ (propfind 3 ((4 : ℚ)/5) scriptRedirEx 0 "https://h/x").sleeps = []
      ∧ (propfind 3 ((4 : ℚ)/5) scriptRedirEx 0 "https://h/x").queries.length = 3
      ∧ (propfind 3 ((4 : ℚ)/5) scriptRedirEx 0 "https://h/x").idx = 0 + 3
      ∧ (0 < 3 →
          (propfind 3 ((4 : ℚ)/5) scriptRedirEx 0 "https://h/x").queries.head?
            = some "https://h/x")
      ∧ (∀ j hcur, j + 1 < 3 →
          (propfind 3 ((4 : ℚ)/5) scriptRedirEx 0 "https://h/x").queries[j]?
            = some hcur →
          (propfind 3 ((4 : ℚ)/5) scriptRedirEx 0 "https://h/x").queries[j + 1]?
            = some (((scriptRedirEx (0 + j)).locOf).getD hcur)) :=
  C10_redirect_budget 3 ((4 : ℚ)/5) scriptRedirEx 0 "https://h/x" (by decide)

theorem C3_all_attempts_fail_witness :
    (propfind 2 ((4 : ℚ)/5) scriptFailEx 0 "https://h/x").result
        = .error (some (.httpStatus 500))
      ∧ (crawl ⟨exWr, exSb, 2, (4 : ℚ)/5⟩ scriptFailEx 1 0).result
        = .error (.request (some (.httpStatus 500))) :=
  C3_all_attempts_fail_amended ⟨exWr, exSb, 2, (4 : ℚ)/5⟩ scriptFailEx 0 1
    "https://h/x" (by decide) (by decide) (by decide)
